import Mathlib

/-!
Verification of the passport-power dashboard core (`src/app.py`).

The reproducible core is the selection-driven aggregator `update_output`
together with the startup color registry `requirement_colors`.  The dataset
is a flat table of (origin, destination, requirement) string triples; the
aggregator filters it to one origin and derives map rows, a requirement
distribution, summary statistics, and destination lists grouped by
requirement category.

Modelling conventions:
* a pandas frame of the three string columns is a `List Row`;
* Python float arithmetic is modelled over `ℚ` (the power-score weights
  0.7 and 0.5 are exact rationals there);
* Python's `/` on ints, which raises `ZeroDivisionError` on a zero
  denominator, is modelled as an `Option ℚ` that is `none` exactly when the
  denominator is zero;
* `pandas.Series.str.contains('electronic', case=False, na=False)` with a
  literal pattern is a case-insensitive substring test, modelled by
  lowercasing both sides and searching the character list;
* `value_counts` orders the distribution by descending count; no property
  below depends on that display order, so the embedding enumerates the
  distinct requirement values by `dedup` instead.
-/

/-- One record of the loaded table: a row of the CSV with columns
`origin`, `destination`, `requirement` (all free-text strings). -/
structure Row where
  origin : String
  destination : String
  requirement : String
deriving DecidableEq, Repr

/-- Does `hay` start with `pat`? (character-list version). -/
def matchesAt : List Char → List Char → Bool
  | _, [] => true
  | [], _ :: _ => false
  | a :: as, b :: bs => a == b && matchesAt as bs

/-- Does `pat` occur as a contiguous substring of `hay`? -/
def findSub : List Char → List Char → Bool
  | [], pat => matchesAt [] pat
  | a :: t, pat => matchesAt (a :: t) pat || findSub t pat

/-- The characters of a string, lowercased (`case=False` lowercases both
sides of the match). -/
def lowerData (s : String) : List Char :=
  s.data.map Char.toLower

/-- Case-insensitive substring containment: the model of
`s.str.contains(pat, case=False, na=False)` for a literal (regex-free)
pattern, as used at src/app.py:174. -/
def strContainsCI (s pat : String) : Bool :=
  findSub (lowerData s) (lowerData pat)

/-- `df[df['origin'] == selected_country]` (src/app.py:94). -/
def filtered_data (df : List Row) (selected_country : String) : List Row :=
  df.filter (fun r => r.origin == selected_country)

/-- `len(rows[rows['requirement'] == req])`: exact-equality count used for
the visa_free / visa_on_arrival / visa_required statistics
(src/app.py:172,173,175). -/
def countEq (rows : List Row) (req : String) : Nat :=
  (rows.filter (fun r => r.requirement == req)).length

/-- `len(rows[rows['requirement'].str.contains('electronic', case=False, na=False)])`
(src/app.py:174). -/
def eVisaCountOf (rows : List Row) : Nat :=
  (rows.filter (fun r => strContainsCI r.requirement "electronic")).length

/-- The distinct requirement values of a list of rows (the index of
`value_counts()` at src/app.py:134, and `df['requirement'].unique()` at
src/app.py:18; enumeration order is display-only and not modelled). -/
def uniqueReqs (rows : List Row) : List String :=
  (rows.map (fun r => r.requirement)).dedup

/-- `filtered_data['requirement'].value_counts()` as (requirement, count)
pairs (src/app.py:134-135). -/
def distributionOf (rows : List Row) : List (String × Nat) :=
  (uniqueReqs rows).map (fun req => (req, countEq rows req))

/-- `filtered_data[filtered_data['requirement'] == req]['destination'].tolist()`
(src/app.py:225). -/
def destinationsOf (rows : List Row) (req : String) : List String :=
  (rows.filter (fun r => r.requirement == req)).map (fun r => r.destination)

/-- Lexicographic comparison of character lists by code point, the order
Python's `sorted` uses on strings. -/
def lexLe : List Char → List Char → Bool
  | [], _ => true
  | _ :: _, [] => false
  | a :: as, b :: bs =>
    if a.toNat < b.toNat then true
    else if b.toNat < a.toNat then false
    else lexLe as bs

/-- Lexicographic string comparison by code point (Python `<=` on `str`). -/
def strLe (a b : String) : Bool :=
  lexLe a.data b.data

/-- The countries-list groups: for each distinct requirement value, the
destinations of its rows, rendered sorted ascending (src/app.py:223-226
builds the lists, src/app.py:243 renders them through `sorted(countries)`). -/
def groupsOf (rows : List Row) : List (String × List String) :=
  (uniqueReqs rows).map
    (fun req =>
      (req, List.insertionSort (fun a b : String => strLe a b = true) (destinationsOf rows req)))

/-- The percentage expression `count/total*100` of src/app.py:187,195,203,211.
Python raises `ZeroDivisionError` when `total == 0`; the fault is modelled
as `none`. -/
def pct (count total : Nat) : Option ℚ :=
  if total = 0 then none else some ((count : ℚ) / (total : ℚ) * 100)

/-- The summary statistics assembled by `update_output`
(src/app.py:171-219). -/
structure Stats where
  total : Nat
  visaFreeCount : Nat
  visaOnArrivalCount : Nat
  eVisaCount : Nat
  visaRequiredCount : Nat
  powerScore : ℚ
  pctVisaFree : Option ℚ
  pctVisaOnArrival : Option ℚ
  pctEVisa : Option ℚ
  pctVisaRequired : Option ℚ
deriving DecidableEq, Repr

/-- The derived views produced by one callback invocation. -/
structure AggregateResult where
  mapRows : List (String × String)
  distribution : List (String × Nat)
  stats : Stats
  groups : List (String × List String)
deriving DecidableEq, Repr

/-- The aggregation core of the callback `update_output`
(src/app.py:92-249): filter to the selected origin, then derive map rows,
the requirement distribution, the statistics and the grouped country
lists.  Figure styling and HTML assembly are presentation-only and not
modelled. -/
def update_output (df : List Row) (selected_country : String) : AggregateResult :=
  let fd := filtered_data df selected_country
  let total_countries := fd.length
  let visa_free_count := countEq fd "visa_free"
  let visa_on_arrival_count := countEq fd "visa_on_arrival"
  let e_visa_count := eVisaCountOf fd
  let visa_required_count := countEq fd "visa_required"
  let power_score : ℚ :=
    (visa_free_count : ℚ) + (0.7 : ℚ) * (visa_on_arrival_count : ℚ)
      + (0.5 : ℚ) * (e_visa_count : ℚ)
  { mapRows := fd.map (fun r => (r.destination, r.requirement))
    distribution := distributionOf fd
    stats :=
      { total := total_countries
        visaFreeCount := visa_free_count
        visaOnArrivalCount := visa_on_arrival_count
        eVisaCount := e_visa_count
        visaRequiredCount := visa_required_count
        powerScore := power_score
        pctVisaFree := pct visa_free_count total_countries
        pctVisaOnArrival := pct visa_on_arrival_count total_countries
        pctEVisa := pct e_visa_count total_countries
        pctVisaRequired := pct visa_required_count total_countries }
    groups := groupsOf fd }

/-- The fixed requirement-to-color entries (src/app.py:10-15). -/
def fixed_colors : List (String × String) :=
  [("visa_free", "#2ca25f"), ("visa_on_arrival", "#99d8c9"),
   ("electronic_visa", "#f1b6da"), ("visa_required", "#d73027")]

/-- Extend a color table with a default-gray entry for every listed
requirement not already mapped (the loop at src/app.py:19-21). -/
def extendColors (m : List (String × String)) (reqs : List String) : List (String × String) :=
  reqs.foldl
    (fun acc req => if (List.lookup req acc).isSome then acc else acc ++ [(req, "#808080")])
    m

/-- The startup color registry built from the loaded table
(src/app.py:10-21). -/
def requirement_colors (df : List Row) : List (String × String) :=
  extendColors fixed_colors (uniqueReqs df)

/-! ### Model of the process-wide state read by the callback -/

/-- The process-wide state visible to the callback: the loaded table and
the color registry (src/app.py:7-21).  Both are read, never written, by
`update_output`. -/
structure AppState where
  df : List Row
  requirement_colors : List (String × String)
deriving DecidableEq, Repr

/-- `requirement_colors.get(req, "#808080")` (src/app.py:231). -/
def category_color (st : AppState) (req : String) : String :=
  (List.lookup req st.requirement_colors).getD "#808080"

/-- The callback with the globals threaded explicitly: it returns the
state unchanged together with the aggregate result and the header color
chosen for each rendered category (src/app.py:229-247). -/
def update_output_st (st : AppState) (sel : String) :
    AppState × AggregateResult × List (String × String) :=
  (st, update_output st.df sel,
    ((update_output st.df sel).groups.map Prod.fst).map
      (fun req => (req, category_color st req)))

/-! ### Fixtures -/

/-- A table whose only origin is "Kenya": selecting any other origin
filters to the empty frame. -/
def loneOriginTable : List Row :=
  [⟨"Kenya", "France", "visa_required"⟩]

/-- A one-row fixture whose requirement is the mixed-case category
`Electronic_Visa_Type`. -/
def mixedCaseTable : List Row :=
  [⟨"Utopia", "Chile", "Electronic_Visa_Type"⟩]

/-- Known-count fixture: 3 visa_free, 2 visa_on_arrival, 1 electronic_visa
rows for origin "Freedonia". -/
def powerTable : List Row :=
  [⟨"Freedonia", "Austria", "visa_free"⟩,
   ⟨"Freedonia", "Belgium", "visa_free"⟩,
   ⟨"Freedonia", "Chad", "visa_free"⟩,
   ⟨"Freedonia", "Denmark", "visa_on_arrival"⟩,
   ⟨"Freedonia", "Ecuador", "visa_on_arrival"⟩,
   ⟨"Freedonia", "Fiji", "electronic_visa"⟩]

/-- Fixture with an off-enumeration category ("mystery_permit", which does
not contain "electronic") and a mixed-case electronic category. -/
def mixedTable : List Row :=
  [⟨"Atlantis", "France", "mystery_permit"⟩,
   ⟨"Atlantis", "Spain", "visa_free"⟩,
   ⟨"Atlantis", "Chile", "Electronic_Visa_Type"⟩]

/-- Fixture whose visa_free destinations appear in the order
Zambia, Albania, Qatar. -/
def unsortedTable : List Row :=
  [⟨"Utopia", "Zambia", "visa_free"⟩,
   ⟨"Utopia", "Albania", "visa_free"⟩,
   ⟨"Utopia", "Qatar", "visa_free"⟩]

/-! ### Unfolding lemmas for the result components -/

theorem uo_mapRows (df : List Row) (sel : String) :
    (update_output df sel).mapRows
      = (filtered_data df sel).map (fun r => (r.destination, r.requirement)) := rfl

theorem uo_distribution (df : List Row) (sel : String) :
    (update_output df sel).distribution = distributionOf (filtered_data df sel) := rfl

theorem uo_groups (df : List Row) (sel : String) :
    (update_output df sel).groups = groupsOf (filtered_data df sel) := rfl

theorem uo_total (df : List Row) (sel : String) :
    (update_output df sel).stats.total = (filtered_data df sel).length := rfl

theorem uo_eVisaCount (df : List Row) (sel : String) :
    (update_output df sel).stats.eVisaCount = eVisaCountOf (filtered_data df sel) := rfl

theorem uo_powerScore (df : List Row) (sel : String) :
    (update_output df sel).stats.powerScore
      = (countEq (filtered_data df sel) "visa_free" : ℚ)
        + (0.7 : ℚ) * (countEq (filtered_data df sel) "visa_on_arrival" : ℚ)
        + (0.5 : ℚ) * (eVisaCountOf (filtered_data df sel) : ℚ) := rfl

theorem uo_pctVisaFree (df : List Row) (sel : String) :
    (update_output df sel).stats.pctVisaFree
      = pct (countEq (filtered_data df sel) "visa_free") (filtered_data df sel).length := rfl

theorem uo_pctVisaOnArrival (df : List Row) (sel : String) :
    (update_output df sel).stats.pctVisaOnArrival
      = pct (countEq (filtered_data df sel) "visa_on_arrival") (filtered_data df sel).length := rfl

theorem uo_pctEVisa (df : List Row) (sel : String) :
    (update_output df sel).stats.pctEVisa
      = pct (eVisaCountOf (filtered_data df sel)) (filtered_data df sel).length := rfl

theorem uo_pctVisaRequired (df : List Row) (sel : String) :
    (update_output df sel).stats.pctVisaRequired
      = pct (countEq (filtered_data df sel) "visa_required") (filtered_data df sel).length := rfl

/-! ### Correctness of the substring search -/

theorem matchesAt_iff (pat hay : List Char) :
    matchesAt hay pat = true ↔ ∃ rest, hay = pat ++ rest := by
  induction pat generalizing hay with
  | nil =>
    constructor
    · intro _; exact ⟨hay, rfl⟩
    · intro _; cases hay <;> rfl
  | cons b bs ih =>
    cases hay with
    | nil =>
      constructor
      · intro h; exact absurd h (by simp [matchesAt])
      · rintro ⟨rest, h⟩; exact absurd h (by simp)
    | cons a as =>
      rw [show matchesAt (a :: as) (b :: bs) = (a == b && matchesAt as bs) from rfl]
      rw [Bool.and_eq_true, beq_iff_eq, ih]
      constructor
      · rintro ⟨rfl, rest, rfl⟩; exact ⟨rest, rfl⟩
      · rintro ⟨rest, h⟩
        injection h with h1 h2
        exact ⟨h1, rest, h2⟩

theorem findSub_iff (pat hay : List Char) :
    findSub hay pat = true ↔ ∃ pre post, hay = pre ++ pat ++ post := by
  induction hay with
  | nil =>
    rw [show findSub [] pat = matchesAt [] pat from rfl, matchesAt_iff]
    constructor
    · rintro ⟨rest, h⟩; exact ⟨[], rest, h⟩
    · rintro ⟨pre, post, h⟩
      cases pre with
      | nil => exact ⟨post, h⟩
      | cons x xs => simp at h
  | cons a t ih =>
    rw [show findSub (a :: t) pat = (matchesAt (a :: t) pat || findSub t pat) from rfl,
        Bool.or_eq_true, matchesAt_iff, ih]
    constructor
    · rintro (⟨rest, h⟩ | ⟨pre, post, h⟩)
      · exact ⟨[], rest, h⟩
      · exact ⟨a :: pre, post, by rw [h]; rfl⟩
    · rintro ⟨pre, post, h⟩
      cases pre with
      | nil => exact Or.inl ⟨post, h⟩
      | cons x xs =>
        injection h with h1 h2
        exact Or.inr ⟨xs, post, h2⟩

/-! ### The lexicographic comparison agrees with the string order -/

theorem lexLe_total (as bs : List Char) : lexLe as bs = true ∨ lexLe bs as = true := by
  induction as generalizing bs with
  | nil => exact Or.inl rfl
  | cons a t ih =>
    cases bs with
    | nil => exact Or.inr rfl
    | cons b u =>
      rw [show lexLe (a :: t) (b :: u)
          = (if a.toNat < b.toNat then true
             else if b.toNat < a.toNat then false else lexLe t u) from rfl,
        show lexLe (b :: u) (a :: t)
          = (if b.toNat < a.toNat then true
             else if a.toNat < b.toNat then false else lexLe u t) from rfl]
      by_cases h1 : a.toNat < b.toNat
      · left; rw [if_pos h1]
      · by_cases h2 : b.toNat < a.toNat
        · right; rw [if_pos h2]
        · rw [if_neg h1, if_neg h2, if_neg h2, if_neg h1]
          exact ih u

theorem lexLe_trans (as : List Char) :
    ∀ bs cs, lexLe as bs = true → lexLe bs cs = true → lexLe as cs = true := by
  induction as with
  | nil => intro bs cs _ _; rfl
  | cons a t ih =>
    intro bs cs hab hbc
    cases bs with
    | nil => exact absurd hab (by simp [lexLe])
    | cons b u =>
      cases cs with
      | nil => exact absurd hbc (by simp [lexLe])
      | cons c v =>
        rw [show lexLe (a :: t) (b :: u)
            = (if a.toNat < b.toNat then true
               else if b.toNat < a.toNat then false else lexLe t u) from rfl] at hab
        rw [show lexLe (b :: u) (c :: v)
            = (if b.toNat < c.toNat then true
               else if c.toNat < b.toNat then false else lexLe u v) from rfl] at hbc
        rw [show lexLe (a :: t) (c :: v)
            = (if a.toNat < c.toNat then true
               else if c.toNat < a.toNat then false else lexLe t v) from rfl]
        by_cases h1 : a.toNat < b.toNat
        · by_cases h2 : b.toNat < c.toNat
          · rw [if_pos (Nat.lt_trans h1 h2)]
          · by_cases h3 : c.toNat < b.toNat
            · rw [if_neg h2, if_pos h3] at hbc; exact absurd hbc (by simp)
            · have hbceq : b.toNat = c.toNat :=
                Nat.le_antisymm (Nat.le_of_not_lt h3) (Nat.le_of_not_lt h2)
              rw [if_pos (hbceq ▸ h1)]
        · by_cases h4 : b.toNat < a.toNat
          · rw [if_neg h1, if_pos h4] at hab; exact absurd hab (by simp)
          · have habeq : a.toNat = b.toNat :=
              Nat.le_antisymm (Nat.le_of_not_lt h4) (Nat.le_of_not_lt h1)
            rw [if_neg h1, if_neg h4] at hab
            by_cases h2 : b.toNat < c.toNat
            · rw [if_pos (habeq ▸ h2)]
            · by_cases h3 : c.toNat < b.toNat
              · rw [if_neg h2, if_pos h3] at hbc; exact absurd hbc (by simp)
              · have hbceq : b.toNat = c.toNat :=
                  Nat.le_antisymm (Nat.le_of_not_lt h3) (Nat.le_of_not_lt h2)
                rw [if_neg h2, if_neg h3] at hbc
                have hac : ¬ a.toNat < c.toNat := by omega
                have hca : ¬ c.toNat < a.toNat := by omega
                rw [if_neg hac, if_neg hca]
                exact ih u v hab hbc

theorem lexLe_iff_not_lt (as : List Char) :
    ∀ bs, lexLe as bs = true ↔ ¬ List.lt bs as := by
  induction as with
  | nil =>
    intro bs
    exact ⟨fun _ h => (nomatch h), fun _ => rfl⟩
  | cons a t ih =>
    intro bs
    cases bs with
    | nil =>
      apply iff_of_false (by simp [lexLe])
      exact not_not_intro (List.lt.nil a t)
    | cons b u =>
      rw [show lexLe (a :: t) (b :: u)
          = (if a.toNat < b.toNat then true
             else if b.toNat < a.toNat then false else lexLe t u) from rfl]
      by_cases h1 : a.toNat < b.toNat
      · rw [if_pos h1]
        apply iff_of_true rfl
        intro hlt
        cases hlt with
        | head _ _ hba =>
          have hba2 : b.toNat < a.toNat := hba
          omega
        | tail hba hab _ => exact hab h1
      · by_cases h2 : b.toNat < a.toNat
        · rw [if_neg h1, if_pos h2]
          exact iff_of_false (by simp) (not_not_intro (List.lt.head _ _ h2))
        · rw [if_neg h1, if_neg h2, ih u]
          constructor
          · intro hnt hlt
            cases hlt with
            | head _ _ hba =>
              have hba2 : b.toNat < a.toNat := hba
              omega
            | tail _ _ hut => exact hnt hut
          · intro hn hut
            exact hn (List.lt.tail h2 h1 hut)

theorem strLe_iff_le (a b : String) : strLe a b = true ↔ a ≤ b := by
  rw [String.le_iff_toList_le, ← not_lt]
  show strLe a b = true ↔ ¬ List.Lex (· < ·) b.data a.data
  rw [← List.lt_iff_lex_lt]
  exact lexLe_iff_not_lt a.data b.data

/-! ### The claims -/

/-- C1: the spec requires that a selection matching no origin yield a
degenerate result with `total = 0` and all percentages 0 without a fault;
the code does reach `total = 0`, but every percentage expression
`count/total_countries*100` (src/app.py:187,195,203,211) divides by the
zero total unguarded, which in Python raises `ZeroDivisionError` —
modelled here by the percentage fields being `none` rather than
`some 0`. -/
theorem unknown_origin_zero_total_percentage_fault (df : List Row) (sel : String)
    (h : ∀ r ∈ df, ¬ r.origin = sel) :
    (update_output df sel).stats.total = 0
    ∧ (update_output df sel).stats.pctVisaFree = none
    ∧ (update_output df sel).stats.pctVisaOnArrival = none
    ∧ (update_output df sel).stats.pctEVisa = none
    ∧ (update_output df sel).stats.pctVisaRequired = none
    ∧ (update_output df sel).stats.pctVisaFree ≠ some 0 := by
  have hfd : filtered_data df sel = [] := by
    rw [filtered_data, List.filter_eq_nil_iff]
    intro a ha
    simp [h a ha]
  refine ⟨?_, ?_, ?_, ?_, ?_, ?_⟩
  · rw [uo_total, hfd]; rfl
  · rw [uo_pctVisaFree, hfd]; rfl
  · rw [uo_pctVisaOnArrival, hfd]; rfl
  · rw [uo_pctEVisa, hfd]; rfl
  · rw [uo_pctVisaRequired, hfd]; rfl
  · rw [uo_pctVisaFree, hfd]
    intro hsome
    exact Option.noConfusion hsome

theorem unknown_origin_zero_total_percentage_fault_witness :
    (update_output loneOriginTable "Nowhereland").stats.total = 0
    ∧ (update_output loneOriginTable "Nowhereland").stats.pctVisaFree = none
    ∧ (update_output loneOriginTable "Nowhereland").stats.pctVisaOnArrival = none
    ∧ (update_output loneOriginTable "Nowhereland").stats.pctEVisa = none
    ∧ (update_output loneOriginTable "Nowhereland").stats.pctVisaRequired = none
    ∧ (update_output loneOriginTable "Nowhereland").stats.pctVisaFree ≠ some 0 :=
  unknown_origin_zero_total_percentage_fault loneOriginTable "Nowhereland" (by decide)

/-- C2: `eVisaCount` counts exactly the filtered rows whose requirement
contains the substring "electronic" case-insensitively: the counting
predicate holds iff the lowercased requirement splits as
`pre ++ "electronic" ++ post`; a row whose requirement is the mixed-case
`Electronic_Visa_Type` is counted even though it differs from every fixed
category name. -/
theorem eVisaCount_ci_substring (df : List Row) (sel : String) :
    ((update_output df sel).stats.eVisaCount
      = ((filtered_data df sel).filter
          (fun r => strContainsCI r.requirement "electronic")).length)
    ∧ (∀ s : String, strContainsCI s "electronic" = true ↔
        ∃ pre post, lowerData s = pre ++ "electronic".data ++ post)
    ∧ (update_output mixedCaseTable "Utopia").stats.eVisaCount = 1
    ∧ "Electronic_Visa_Type" ≠ "electronic_visa" := by
  refine ⟨rfl, ?_, by decide, by decide⟩
  intro s
  have hpat : lowerData "electronic" = "electronic".data := by decide
  rw [strContainsCI, hpat, findSub_iff]

/-- C3: the power score is the fixed-weight composite
`visaFreeCount + 0.7 * visaOnArrivalCount + 0.5 * eVisaCount`
(src/app.py:178), and on a fixture with counts 3, 2, 1 it equals 4.9. -/
theorem powerScore_fixed_weights (df : List Row) (sel : String) :
    ((update_output df sel).stats.powerScore
      = ((update_output df sel).stats.visaFreeCount : ℚ)
        + (0.7 : ℚ) * ((update_output df sel).stats.visaOnArrivalCount : ℚ)
        + (0.5 : ℚ) * ((update_output df sel).stats.eVisaCount : ℚ))
    ∧ (update_output powerTable "Freedonia").stats.powerScore = (4.9 : ℚ) := by
  constructor
  · rfl
  · have h1 : countEq (filtered_data powerTable "Freedonia") "visa_free" = 3 := by decide
    have h2 : countEq (filtered_data powerTable "Freedonia") "visa_on_arrival" = 2 := by decide
    have h3 : eVisaCountOf (filtered_data powerTable "Freedonia") = 1 := by decide
    rw [uo_powerScore, h1, h2, h3]
    norm_num

/-- C8: `update_output` is a pure function of its two arguments: two
invocations with identical table and selection produce structurally
identical results, component by component. -/
theorem update_output_deterministic (df : List Row) (sel : String)
    (r₁ r₂ : AggregateResult)
    (h₁ : r₁ = update_output df sel) (h₂ : r₂ = update_output df sel) :
    r₁ = r₂ ∧ r₁.mapRows = r₂.mapRows ∧ r₁.distribution = r₂.distribution
    ∧ r₁.stats = r₂.stats ∧ r₁.groups = r₂.groups := by
  subst h₁; subst h₂
  exact ⟨rfl, rfl, rfl, rfl, rfl⟩

theorem update_output_deterministic_witness :
    update_output loneOriginTable "Kenya" = update_output loneOriginTable "Kenya"
    ∧ (update_output loneOriginTable "Kenya").mapRows
        = (update_output loneOriginTable "Kenya").mapRows
    ∧ (update_output loneOriginTable "Kenya").distribution
        = (update_output loneOriginTable "Kenya").distribution
    ∧ (update_output loneOriginTable "Kenya").stats
        = (update_output loneOriginTable "Kenya").stats
    ∧ (update_output loneOriginTable "Kenya").groups
        = (update_output loneOriginTable "Kenya").groups :=
  update_output_deterministic loneOriginTable "Kenya" _ _ rfl rfl

/-- C9: running the aggregation leaves the process-wide state (table and
color registry) unchanged: the state-threaded callback returns its input
state as-is, and a second call on the returned state reproduces the first
call's output exactly. -/
theorem update_output_frame (st : AppState) (sel : String) :
    (update_output_st st sel).1 = st
    ∧ update_output_st (update_output_st st sel).1 sel = update_output_st st sel
    ∧ (update_output_st st sel).2.1 = update_output st.df sel :=
  ⟨rfl, rfl, rfl⟩

/-- C10: the four named counts do not partition the filtered rows: on
`mixedTable` selection "Atlantis" the row "mystery_permit" is counted by
none of them (sum 2 against total 3), and `eVisaCount` counts the
mixed-case `Electronic_Visa_Type` row although its category is not
exactly `electronic_visa`. -/
theorem named_counts_not_a_partition :
    ((update_output mixedTable "Atlantis").stats.visaFreeCount
      + (update_output mixedTable "Atlantis").stats.visaOnArrivalCount
      + (update_output mixedTable "Atlantis").stats.eVisaCount
      + (update_output mixedTable "Atlantis").stats.visaRequiredCount
      ≠ (update_output mixedTable "Atlantis").stats.total)
    ∧ (update_output mixedTable "Atlantis").stats.total = 3
    ∧ (update_output mixedTable "Atlantis").stats.eVisaCount = 1
    ∧ countEq (filtered_data mixedTable "Atlantis") "electronic_visa" = 0 := by
  refine ⟨by decide, by decide, by decide, by decide⟩

/-! ### Counting lemmas -/

theorem countEq_eq_count (rows : List Row) (req : String) :
    countEq rows req = (rows.map (fun r => r.requirement)).count req := by
  rw [countEq, ← List.countP_eq_length_filter, List.count, List.countP_map]
  rfl

theorem count_filter_fiber (l : List Row) (r : Row) (req : String) :
    (l.filter (fun x => x.requirement == req)).count r
      = if r.requirement = req then l.count r else 0 := by
  by_cases h : r.requirement = req
  · rw [if_pos h, List.count_filter (by simp [h])]
  · rw [if_neg h, List.count_eq_zero]
    intro hmem
    exact h (by simpa using (List.mem_filter.mp hmem).2)

theorem sum_map_if_single {L : List String} (hnd : L.Nodup) (a : String) (c : Nat)
    (ha : a ∈ L) :
    (L.map (fun x => if a = x then c else 0)).sum = c := by
  induction L with
  | nil => cases ha
  | cons x xs ih =>
    rcases List.mem_cons.mp ha with rfl | hmem
    · simp only [List.map_cons, List.sum_cons]
      have h0 : (xs.map (fun y => if a = y then c else 0)).sum = 0 := by
        apply List.sum_eq_zero
        intro n hn
        rcases List.mem_map.mp hn with ⟨z, hz, rfl⟩
        exact if_neg (by rintro rfl; exact (List.nodup_cons.mp hnd).1 hz)
      simp [h0]
    · simp only [List.map_cons, List.sum_cons]
      rw [if_neg (fun (e : a = x) => (List.nodup_cons.mp hnd).1 (e ▸ hmem)),
        ih (List.nodup_cons.mp hnd).2 hmem, Nat.zero_add]

/-- Re-joining the requirement fibers taken over the distinct requirement
values recovers the row list up to permutation. -/
theorem flatten_fibers_perm (l : List Row) :
    List.Perm
      (((l.map (fun r => r.requirement)).dedup.map
        (fun req => l.filter (fun x => x.requirement == req))).flatten)
      l := by
  rw [List.perm_iff_count]
  intro r
  rw [List.count_flatten, List.map_map]
  have hcongr :
      ((l.map (fun r => r.requirement)).dedup.map
          (List.count r ∘ fun req => l.filter (fun x => x.requirement == req)))
        = ((l.map (fun r => r.requirement)).dedup.map
          (fun req => if r.requirement = req then l.count r else 0)) :=
    List.map_congr_left (fun req _ => count_filter_fiber l r req)
  rw [hcongr]
  by_cases hr : r ∈ l
  · have hmem : r.requirement ∈ (l.map (fun r => r.requirement)).dedup :=
      List.mem_dedup.mpr (List.mem_map.mpr ⟨r, hr, rfl⟩)
    exact sum_map_if_single (List.nodup_dedup _) r.requirement (List.count r l) hmem
  · have h0 : l.count r = 0 := List.count_eq_zero.mpr hr
    rw [h0]
    apply List.sum_eq_zero
    intro n hn
    rcases List.mem_map.mp hn with ⟨req, _, rfl⟩
    split <;> rfl

/-- C4: the distribution counts sum to `stats.total`, which is the number
of map rows (the filtered records of the selection). -/
theorem distribution_sum_eq_total (df : List Row) (sel : String) :
    (((update_output df sel).distribution.map Prod.snd).sum
      = (update_output df sel).stats.total)
    ∧ ((update_output df sel).stats.total = (update_output df sel).mapRows.length) := by
  constructor
  · rw [uo_distribution, uo_total, distributionOf, List.map_map]
    have hc :
        ((uniqueReqs (filtered_data df sel)).map
            (Prod.snd ∘ fun req => (req, countEq (filtered_data df sel) req)))
          = ((filtered_data df sel).map (fun r => r.requirement)).dedup.map
              (fun x => ((filtered_data df sel).map (fun r => r.requirement)).count x) :=
      List.map_congr_left (fun req _ => countEq_eq_count (filtered_data df sel) req)
    rw [hc, List.sum_map_count_dedup_eq_length, List.length_map]
  · rw [uo_total, uo_mapRows, List.length_map]

/-- Flattening pointwise-permuted mapped lists preserves permutation. -/
theorem flatten_map_perm {α β : Type} (L : List β) (f g : β → List α)
    (h : ∀ b ∈ L, List.Perm (f b) (g b)) :
    List.Perm ((L.map f).flatten) ((L.map g).flatten) := by
  induction L with
  | nil => exact List.Perm.refl _
  | cons x xs ih =>
    simp only [List.map_cons, List.flatten_cons]
    exact (h x (List.mem_cons_self x xs)).append
      (ih (fun b hb => h b (List.mem_cons_of_mem x hb)))

/-- C5: the multiset union of the group destination lists is exactly the
multiset of destinations of the filtered rows (the map rows). -/
theorem groups_union_is_destinations (df : List Row) (sel : String) :
    List.Perm (((update_output df sel).groups.map Prod.snd).flatten)
      ((update_output df sel).mapRows.map Prod.fst) := by
  rw [uo_groups, uo_mapRows, groupsOf, List.map_map, List.map_map]
  refine List.Perm.trans
    (flatten_map_perm _ _ (destinationsOf (filtered_data df sel))
      (fun req _ => List.perm_insertionSort _ _)) ?_
  have hd :
      ((uniqueReqs (filtered_data df sel)).map (destinationsOf (filtered_data df sel)))
        = ((uniqueReqs (filtered_data df sel)).map
            (fun req => (filtered_data df sel).filter
              (fun x => x.requirement == req))).map (List.map (fun r => r.destination)) := by
    rw [List.map_map]
    exact List.map_congr_left (fun req _ => rfl)
  rw [hd, ← List.map_flatten]
  exact List.Perm.map _ (flatten_fibers_perm (filtered_data df sel))

/-- C6: every destination list in `groups` is sorted in ascending
lexicographic order. -/
theorem groups_lists_sorted (df : List Row) (sel : String) (req : String)
    (g : List String) (h : (req, g) ∈ (update_output df sel).groups) :
    List.Sorted (fun a b : String => a ≤ b) g := by
  rw [uo_groups, groupsOf] at h
  rcases List.mem_map.mp h with ⟨req0, _, heq⟩
  have hg : g = List.insertionSort (fun a b : String => strLe a b = true)
      (destinationsOf (filtered_data df sel) req0) :=
    ((Prod.mk.injEq _ _ _ _).mp heq).2.symm
  haveI hto : IsTotal String (fun a b : String => strLe a b = true) :=
    ⟨fun a b => lexLe_total a.data b.data⟩
  haveI htr : IsTrans String (fun a b : String => strLe a b = true) :=
    ⟨fun a b c => lexLe_trans a.data b.data c.data⟩
  rw [hg]
  refine List.Pairwise.imp (fun hab => (strLe_iff_le _ _).mp hab) ?_
  exact List.sorted_insertionSort _ _

theorem groups_lists_sorted_witness :
    List.Sorted (fun a b : String => a ≤ b) ["Albania", "Qatar", "Zambia"] :=
  groups_lists_sorted unsortedTable "Utopia" "visa_free" ["Albania", "Qatar", "Zambia"]
    (by decide)

/-! ### Registry lemmas -/

theorem lookup_extendColors_of_isSome (k : String) (reqs : List String) :
    ∀ m, (List.lookup k m).isSome = true →
      List.lookup k (extendColors m reqs) = List.lookup k m := by
  induction reqs with
  | nil => intro m _; rfl
  | cons a rest ih =>
    intro m h
    show List.lookup k
        (extendColors (if (List.lookup a m).isSome then m else m ++ [(a, "#808080")]) rest)
      = List.lookup k m
    by_cases ha : (List.lookup a m).isSome = true
    · rw [if_pos ha]
      exact ih m h
    · rw [if_neg ha]
      have hl : List.lookup k (m ++ [(a, "#808080")]) = List.lookup k m := by
        rw [List.lookup_append]
        cases hk : List.lookup k m with
        | some v => rfl
        | none => rw [hk] at h; exact absurd h (by simp)
      rw [ih (m ++ [(a, "#808080")]) (by rw [hl]; exact h), hl]

theorem lookup_extendColors_gray (k : String) (reqs : List String) :
    ∀ m, k ∈ reqs → List.lookup k m = none →
      List.lookup k (extendColors m reqs) = some "#808080" := by
  induction reqs with
  | nil => intro m hk _; cases hk
  | cons a rest ih =>
    intro m hk hm
    show List.lookup k
        (extendColors (if (List.lookup a m).isSome then m else m ++ [(a, "#808080")]) rest)
      = some "#808080"
    by_cases hka : k = a
    · subst hka
      rw [if_neg (by rw [hm]; simp)]
      have hsome : List.lookup k (m ++ [(k, "#808080")]) = some "#808080" := by
        rw [List.lookup_append, hm]
        simp
      rw [lookup_extendColors_of_isSome k rest _ (by rw [hsome]; rfl), hsome]
    · have hkrest : k ∈ rest := by
        rcases List.mem_cons.mp hk with h | h
        · exact absurd h hka
        · exact h
      by_cases ha : (List.lookup a m).isSome = true
      · rw [if_pos ha]
        exact ih m hkrest hm
      · rw [if_neg ha]
        refine ih (m ++ [(a, "#808080")]) hkrest ?_
        rw [List.lookup_append, hm]
        simp [hka]

/-- C7: the registry maps every requirement present in the table to a
defined color; the four fixed categories keep their designated colors, and
every other observed category maps to the shared default gray. -/
theorem registry_covers_observed_requirements (df : List Row) (req : String)
    (h : req ∈ df.map (fun r => r.requirement)) :
    (List.lookup req (requirement_colors df)).isSome = true
    ∧ List.lookup "visa_free" (requirement_colors df) = some "#2ca25f"
    ∧ List.lookup "visa_on_arrival" (requirement_colors df) = some "#99d8c9"
    ∧ List.lookup "electronic_visa" (requirement_colors df) = some "#f1b6da"
    ∧ List.lookup "visa_required" (requirement_colors df) = some "#d73027"
    ∧ (req ∉ ["visa_free", "visa_on_arrival", "electronic_visa", "visa_required"] →
        List.lookup req (requirement_colors df) = some "#808080") := by
  have hfix : ∀ (k : String) (c : String), List.lookup k fixed_colors = some c →
      List.lookup k (requirement_colors df) = some c := by
    intro k c hk
    rw [requirement_colors, lookup_extendColors_of_isSome k _ _ (by rw [hk]; rfl), hk]
  refine ⟨?_, hfix _ _ rfl, hfix _ _ rfl, hfix _ _ rfl, hfix _ _ rfl, ?_⟩
  · cases hc : List.lookup req fixed_colors with
    | some v =>
      rw [hfix req v hc]
      rfl
    | none =>
      rw [requirement_colors, uniqueReqs,
        lookup_extendColors_gray req _ _ (List.mem_dedup.mpr h) hc]
      rfl
  · intro hnot
    have hc : List.lookup req fixed_colors = none := by
      rw [List.lookup_eq_none_iff]
      intro p hp
      simp only [fixed_colors, List.mem_cons, List.not_mem_nil, or_false] at hp
      simp only [List.mem_cons, not_or] at hnot
      rcases hp with rfl | rfl | rfl | rfl
      · simpa using hnot.1
      · simpa using hnot.2.1
      · simpa using hnot.2.2.1
      · simpa using hnot.2.2.2.1
    rw [requirement_colors, uniqueReqs,
      lookup_extendColors_gray req _ _ (List.mem_dedup.mpr h) hc]

theorem registry_covers_observed_requirements_witness :
    ("mystery_permit" ∈ mixedTable.map (fun r => r.requirement))
    ∧ ((List.lookup "mystery_permit" (requirement_colors mixedTable)).isSome = true
    ∧ List.lookup "visa_free" (requirement_colors mixedTable) = some "#2ca25f"
    ∧ List.lookup "visa_on_arrival" (requirement_colors mixedTable) = some "#99d8c9"
    ∧ List.lookup "electronic_visa" (requirement_colors mixedTable) = some "#f1b6da"
    ∧ List.lookup "visa_required" (requirement_colors mixedTable) = some "#d73027"
    ∧ ("mystery_permit" ∉ ["visa_free", "visa_on_arrival", "electronic_visa", "visa_required"] →
        List.lookup "mystery_permit" (requirement_colors mixedTable) = some "#808080")) :=
  ⟨by decide, registry_covers_observed_requirements mixedTable "mystery_permit" (by decide)⟩
